import Mathlib

/-
Verification of the Jzon JSON library (Jzon.h / Jzon.cpp): the document
model (Object / Array / Value nodes), string escaping, the tokenizer, the
stack-based assembler and the formatting writer are embedded as executable
Lean definitions, and the stated properties of each part are settled as
theorems below the definitions.
-/

namespace Jzon

/-- Scalar payload kinds, mirroring `Value::ValueType`. -/
inductive ValueType where
  | VT_NULL
  | VT_STRING
  | VT_NUMBER
  | VT_BOOL
deriving DecidableEq

/-- Document tree nodes: an Object keeps an ordered list of name/child
pairs, an Array an ordered list of children, and a Value a kind tag plus
the stored text (`valueStr`). -/
inductive Node where
  | obj : List (String × Node) → Node
  | arr : List Node → Node
  | val : ValueType → String → Node

/-- `IsWhitespace(char c)` from the source. -/
def IsWhitespace (c : Char) : Bool :=
  c == '\n' || c == ' ' || c == '\t' || c == '\r' || c == '\x0c'

/-- `IsNumber(char c)` from the source: a decimal digit, a dot or a minus. -/
def IsNumber (c : Char) : Bool :=
  ('0' ≤ c && c ≤ '9') || c == '.' || c == '-'

/-- `Node::IsObject`. -/
def Node.IsObject : Node → Bool
  | .obj _ => true
  | _ => false

/-- `Node::IsArray`. -/
def Node.IsArray : Node → Bool
  | .arr _ => true
  | _ => false

/-- `Node::IsValue`. -/
def Node.IsValue : Node → Bool
  | .val _ _ => true
  | _ => false

/-- `Value::IsNull` (the base `Node` returns false for containers). -/
def Node.IsNull : Node → Bool
  | .val .VT_NULL _ => true
  | _ => false

/-- `Value::IsString`. -/
def Node.IsString : Node → Bool
  | .val .VT_STRING _ => true
  | _ => false

/-- `Value::IsNumber`. -/
def Node.IsNumber : Node → Bool
  | .val .VT_NUMBER _ => true
  | _ => false

/-- `Value::IsBool`. -/
def Node.IsBool : Node → Bool
  | .val .VT_BOOL _ => true
  | _ => false

/-- Exceptions of the node API: `TypeException` and `NotFoundException`. -/
inductive JzonError where
  | typeError
  | notFoundError
deriving DecidableEq

/-- Decimal digits read left to right up to the first non-digit character,
into an accumulator. -/
def readDigits : List Char → Nat → Nat
  | [], acc => acc
  | c :: rest, acc =>
    if c.isDigit then readDigits rest (acc * 10 + (c.toNat - 48)) else acc

/-- Extraction of an `int` from the stored text, as `std::stringstream`
does for in-range values: an optional sign, then a run of decimal digits;
a text with no leading digits leaves the result at 0. The model keeps
mathematical integers; the clamping C++ applies on a 32-bit overflow is
not exercised by any claim checked here. -/
def sstreamInt (s : String) : Int :=
  match s.toList with
  | '-' :: rest => -(readDigits rest 0 : Int)
  | '+' :: rest => (readDigits rest 0 : Int)
  | cs => (readDigits cs 0 : Int)

/-- `Value::ToString` as a total function on the payload: the literal
text "null" for the Null kind, the stored text otherwise. -/
def valueText (t : ValueType) (s : String) : String :=
  if t = .VT_NULL then "null" else s

/-- `Node::ToString`: the virtual base throws `TypeException` for Object
and Array nodes; `Value::ToString` never throws and falls back on the
stored text whatever the kind. -/
def Node.ToString : Node → Except JzonError String
  | .val t s => .ok (valueText t s)
  | _ => .error .typeError

/-- `Node::ToInt`: the virtual base throws `TypeException` for Object and
Array nodes; `Value::ToInt` parses the stored text when the kind is
Number and returns 0 otherwise, never throwing. -/
def Node.ToInt : Node → Except JzonError Int
  | .val t s => .ok (if t = .VT_NUMBER then sstreamInt s else 0)
  | _ => .error .typeError

/-- `Node::ToBool`: the virtual base throws `TypeException` for Object and
Array nodes; `Value::ToBool` compares the stored text with "true" when
the kind is Bool and returns false otherwise, never throwing. -/
def Node.ToBool : Node → Except JzonError Bool
  | .val t s => .ok (if t = .VT_BOOL then s == "true" else false)
  | _ => .error .typeError

/-- The escape table `chars`: each literal character paired with its
two-character escape sequence. -/
def chars : List (Char × String) :=
  [('\\', "\\\\"), ('/', "\\/"), ('"', "\\\""), ('\n', "\\n"),
   ('\t', "\\t"), ('\x08', "\\b"), ('\x0c', "\\f"), ('\r', "\\r")]

/-- `getEscaped`: the sequence of the first table entry whose literal
character matches, if any. The source returns the sequence "\0\0" on a
miss and the caller tests its first byte; `none` plays that role here. -/
def getEscaped (c : Char) : Option String :=
  (chars.find? (fun p => p.1 == c)).map (fun p => p.2)

/-- `Value::EscapeString`: every character with a table entry is replaced
by the two characters of its sequence, all others are copied verbatim. -/
def Value.EscapeString (value : String) : String :=
  value.toList.foldl
    (fun acc c =>
      match getEscaped c with
      | some a => acc ++ a
      | none => acc.push c) ""

/-- `getUnescaped`, exactly as the source has it: the loop condition
compares `c1` and `c2` against `chars[0].first` (the backslash) and
`chars[1].first` (the slash) — the loop variable `chr` appears only in
the returned value — so the first iteration already decides: the
backslash (`chars[0].first`) comes back when `c1` is a backslash and `c2`
a slash, and the NUL character otherwise. -/
def getUnescapedLoop : List (Char × String) → Char → Char → Char
  | [], _, _ => '\x00'
  | chr :: rest, c1, c2 =>
    if c1 == '\\' && c2 == '/' then chr.1 else getUnescapedLoop rest c1 c2

/-- `getUnescaped` runs the loop over the escape table. -/
def getUnescaped (c1 c2 : Char) : Char :=
  getUnescapedLoop chars c1 c2

/-- Character loop of `Value::UnescapeString`: `c2` is the following
character, or NUL at the end of the text; when `getUnescaped` yields a
non-NUL character that character is emitted and the iterator advances
past both input characters, otherwise the current character is copied. -/
def unescapeLoop : List Char → List Char
  | [] => []
  | [c] =>
    let a := getUnescaped c '\x00'
    if a != '\x00' then [a] else [c]
  | c :: c2 :: rest =>
    let a := getUnescaped c c2
    if a != '\x00' then a :: unescapeLoop rest else c :: unescapeLoop (c2 :: rest)

/-- `Value::UnescapeString`. -/
def Value.UnescapeString (value : String) : String :=
  (unescapeLoop value.toList).asString

/-- `Value::Set(bool)`: stores "true" or "false" under the Bool kind. -/
def Value.ofBool (b : Bool) : Node :=
  .val .VT_BOOL (if b then "true" else "false")

/-- `Value::Set(int)`: stores the decimal text under the Number kind. -/
def Value.ofInt (n : Int) : Node :=
  .val .VT_NUMBER (toString n)

/-- `Value::Set(const std::string&)`: unescapes the text and stores it
under the String kind. -/
def Value.SetString (s : String) : Node :=
  .val .VT_STRING (Value.UnescapeString s)

/-- `Value::Set(ValueType, const std::string&)`: stores kind and text as
given. -/
def Value.SetTyped (t : ValueType) (s : String) : Node :=
  .val t s

/-- `Object::Add`: appends the named child (the source stores a copy). -/
def Object.Add (children : List (String × Node)) (name : String) (node : Node) :
    List (String × Node) :=
  children ++ [(name, node)]

/-- `Object::Get`: the first entry whose name matches; throws
`NotFoundException` when none does. -/
def Object.Get : List (String × Node) → String → Except JzonError Node
  | [], _ => .error .notFoundError
  | (n, nd) :: rest, name => if n == name then .ok nd else Object.Get rest name

/-- `Object::Remove`: deletes the first entry whose name matches and
stops; the rest of the list is untouched. -/
def Object.Remove : List (String × Node) → String → List (String × Node)
  | [], _ => []
  | (n, nd) :: rest, name =>
    if n == name then rest else (n, nd) :: Object.Remove rest name

/-- `Object::Has`. -/
def Object.Has (children : List (String × Node)) (name : String) : Bool :=
  children.any (fun child => child.1 == name)

/-- `Object::GetCount`. -/
def Object.GetCount (children : List (String × Node)) : Nat :=
  children.length

/-- `Array::Add`: appends the child. -/
def Array.Add (children : List Node) (node : Node) : List Node :=
  children ++ [node]

/-- `Array::Get`: the child at `index`; throws `NotFoundException` past
the end. -/
def Array.Get (children : List Node) (index : Nat) : Except JzonError Node :=
  match children.get? index with
  | some nd => .ok nd
  | none => .error .notFoundError

/-- `Array::Remove`: erases the child at `index` when `index` is within
bounds, and does nothing at all otherwise — neither branch throws. -/
def Array.Remove (children : List Node) (index : Nat) : List Node :=
  if index < children.length then children.take index ++ children.drop (index + 1)
  else children

/-- `Array::GetCount`. -/
def Array.GetCount (children : List Node) : Nat :=
  children.length

/-- Serialisation format, mirroring `struct Format`. -/
structure Format where
  newline : Bool
  spacing : Bool
  useTabs : Bool
  indentSize : Nat

/-- The `StandardFormat` preset. -/
def StandardFormat : Format := ⟨true, true, true, 1⟩

/-- The `NoFormat` (compact) preset. -/
def NoFormat : Format := ⟨false, false, false, 0⟩

/-- Derived fields computed by `FormatInterpreter::SetFormat`: the
indentation character, the spacing text, and the newline text (which
collapses to the spacing text when newlines are off). -/
structure FormatInterpreter where
  format : Format
  indentationChar : Char
  newlineStr : String
  spacingStr : String

/-- `FormatInterpreter::SetFormat`. -/
def FormatInterpreter.SetFormat (format : Format) : FormatInterpreter :=
  let spacing := if format.spacing then " " else ""
  { format := format
    indentationChar := if format.useTabs then '\t' else ' '
    spacingStr := spacing
    newlineStr := if format.newline then "\n" else spacing }

/-- `FormatInterpreter::GetIndentation`: `indentSize * level` repetitions
of the indentation character when newlines are on, empty otherwise. -/
def FormatInterpreter.GetIndentation (fi : FormatInterpreter) (level : Nat) : String :=
  if fi.format.newline then
    (List.replicate (fi.format.indentSize * level) fi.indentationChar).asString
  else ""

/-- `Writer::writeValue`: a String value is quoted and escaped, every
other kind prints its `ToString` text verbatim. -/
def writeValue (t : ValueType) (s : String) : String :=
  if t = .VT_STRING then "\"" ++ Value.EscapeString (valueText t s) ++ "\""
  else valueText t s

mutual
/-- `Writer::writeNode`, dispatching on node type. -/
def writeNode (fi : FormatInterpreter) : Node → Nat → String
  | .obj cs, level =>
    "\x7b" ++ fi.newlineStr ++ writeObjectChildren fi cs level true
      ++ fi.newlineStr ++ fi.GetIndentation level ++ "\x7d"
  | .arr cs, level =>
    "[" ++ fi.newlineStr ++ writeArrayChildren fi cs level true
      ++ fi.newlineStr ++ fi.GetIndentation level ++ "]"
  | .val t s, _ => writeValue t s

/-- Entry loop of `Writer::writeObject`: a comma and newline before every
entry except the first, then indentation, the quoted name, the colon and
the spacing, then the child one level deeper. -/
def writeObjectChildren (fi : FormatInterpreter) :
    List (String × Node) → Nat → Bool → String
  | [], _, _ => ""
  | (name, child) :: rest, level, first =>
    (if first then "" else "," ++ fi.newlineStr)
      ++ fi.GetIndentation (level + 1) ++ "\"" ++ name ++ "\"" ++ ":" ++ fi.spacingStr
      ++ writeNode fi child (level + 1) ++ writeObjectChildren fi rest level false

/-- Entry loop of `Writer::writeArray`. -/
def writeArrayChildren (fi : FormatInterpreter) : List Node → Nat → Bool → String
  | [], _, _ => ""
  | child :: rest, level, first =>
    (if first then "" else "," ++ fi.newlineStr)
      ++ fi.GetIndentation (level + 1) ++ writeNode fi child (level + 1)
      ++ writeArrayChildren fi rest level false
end

/-- `Writer::Write` on a root node under a format. -/
def Writer.Write (root : Node) (format : Format) : String :=
  writeNode (FormatInterpreter.SetFormat format) root 0

/-- Parser token kinds, mirroring `Parser::Token`. -/
inductive Token where
  | T_UNKNOWN
  | T_OBJ_BEGIN
  | T_OBJ_END
  | T_ARRAY_BEGIN
  | T_ARRAY_END
  | T_SEPARATOR_NODE
  | T_SEPARATOR_NAME
  | T_VALUE
deriving DecidableEq

/-- Effect of the uppercase `std::transform` in `Parser::interpretValue`:
the destination `upperValue` has only been `reserve`d, so the transform
writes through `upperValue.begin()` while the size of `upperValue` stays
0, and the string still compares as the empty string afterwards. -/
def upperTransformed (_value : String) : String :=
  ""

/-- `Parser::interpretValue`: classifies a flushed literal buffer and
yields the payload to push, or nothing for an unknown buffer. -/
def interpretValue (value : String) : Option (ValueType × String) :=
  let upperValue := upperTransformed value
  if upperValue == "NULL" then some (.VT_NULL, "")
  else if upperValue == "TRUE" then some (.VT_BOOL, "true")
  else if upperValue == "FALSE" then some (.VT_BOOL, "false")
  else if value.toList.all IsNumber then some (.VT_NUMBER, value)
  else none

/-- String scan of `Parser::readString`, starting just after the opening
quote: stops at the first quote not directly preceded by a backslash
(tracked through `c1`), keeps every scanned character raw, and leaves
the remaining input positioned after the closing quote. -/
def readStringLoop (c1 : Char) (str : List Char) : List Char → List Char × List Char
  | [] => (str, [])
  | c2 :: rest =>
    if c1 != '\\' && c2 == '"' then (str, rest)
    else readStringLoop c2 (str ++ [c2]) rest

/-- Scan of `Parser::jumpToCommentEnd` after the opening slash: consumes
up to and including the closing star-slash pair, or the whole input when
the pair never comes. -/
def commentEndLoop (c1 : Char) : List Char → List Char
  | [] => []
  | c2 :: rest => if c1 == '*' && c2 == '/' then rest else commentEndLoop c2 rest

/-- `Parser::jumpToNext` applied to the newline character, as the line
comment case does: consumes up to and including the next newline. -/
def lineCommentSkip (l : List Char) : List Char :=
  match l.dropWhile (fun c => c != '\n') with
  | [] => []
  | _ :: rest => rest

/-- Tokenizer state: the `token` variable that survives loop iterations,
the pending literal buffer, and the token and payload queues. -/
structure TokState where
  lastToken : Token
  valueBuffer : String
  tokens : List Token
  data : List (ValueType × String)

/-- Tokenizer state at entry of `Parser::tokenize`. -/
def initTokState : TokState :=
  ⟨.T_UNKNOWN, "", [], []⟩

/-- Buffer flush in `Parser::tokenize`: a recognised literal pushes its
payload and a VALUE token, any other text pushes the raw buffer as a
String payload and an UNKNOWN token. -/
def flushBuffer (buf : String) (tokens : List Token) (data : List (ValueType × String)) :
    List Token × List (ValueType × String) :=
  match interpretValue buf with
  | some d => (tokens ++ [.T_VALUE], data ++ [d])
  | none => (tokens ++ [.T_UNKNOWN], data ++ [(.VT_STRING, buf)])

/-- Result of the character switch in `Parser::tokenize`: the value of
the `token` variable after the switch, the input remaining after any
jump, payloads emitted during the switch, the buffer afterwards, and the
`saveBuffer` flag. -/
structure SwitchResult where
  tok : Token
  rest : List Char
  dataEmitted : List (ValueType × String)
  buffer : String
  saveBuffer : Bool

/-- The character switch of `Parser::tokenize` on a non-whitespace
character `c` with remaining input `rest`. In the slash case the `token`
variable is not assigned, so its previous value is kept — and
`saveBuffer` stays true, so that stale token is pushed again once the
comment has been skipped. -/
def tokenizeSwitch (lastToken : Token) (buffer : String) (c : Char) (rest : List Char) :
    SwitchResult :=
  if c == '\x7b' then ⟨.T_OBJ_BEGIN, rest, [], buffer, true⟩
  else if c == '\x7d' then ⟨.T_OBJ_END, rest, [], buffer, true⟩
  else if c == '[' then ⟨.T_ARRAY_BEGIN, rest, [], buffer, true⟩
  else if c == ']' then ⟨.T_ARRAY_END, rest, [], buffer, true⟩
  else if c == ',' then ⟨.T_SEPARATOR_NODE, rest, [], buffer, true⟩
  else if c == ':' then ⟨.T_SEPARATOR_NAME, rest, [], buffer, true⟩
  else if c == '"' then
    let scanned := readStringLoop '\x00' [] rest
    ⟨.T_VALUE, scanned.2, [(.VT_STRING, scanned.1.asString)], buffer, true⟩
  else if c == '/' then
    let p := rest.headD '\x00'
    if p == '*' then ⟨lastToken, commentEndLoop '\x00' rest, [], buffer, true⟩
    else if p == '/' then ⟨lastToken, lineCommentSkip rest, [], buffer, true⟩
    else ⟨lastToken, rest, [], buffer, true⟩
  else ⟨lastToken, rest, [], buffer.push c, false⟩

/-- Main loop of `Parser::tokenize`, one fuel unit per iteration; every
iteration consumes at least one input character, so any fuel of at least
the input length runs the loop to completion. Whitespace skips the whole
iteration (the buffer is not flushed); otherwise the switch runs, then
the literal buffer is flushed when `saveBuffer` holds or the very last
input character was just consumed, and finally the `token` value is
pushed when `saveBuffer` holds. -/
def tokenizeLoop : Nat → List Char → TokState → TokState
  | 0, _, st => st
  | _ + 1, [], st => st
  | fuel + 1, c :: rest, st =>
    if IsWhitespace c then tokenizeLoop fuel rest st
    else
      let sw := tokenizeSwitch st.lastToken st.valueBuffer c rest
      let data1 := st.data ++ sw.dataEmitted
      let doFlush := (sw.saveBuffer || sw.rest.isEmpty) && sw.buffer != ""
      let flushed :=
        if doFlush then flushBuffer sw.buffer st.tokens data1 else (st.tokens, data1)
      let buffer2 := if doFlush then "" else sw.buffer
      let tokens3 := if sw.saveBuffer then flushed.1 ++ [sw.tok] else flushed.1
      tokenizeLoop fuel sw.rest ⟨sw.tok, buffer2, tokens3, flushed.2⟩

/-- `Parser::tokenize` on the whole input. -/
def tokenize (json : String) : TokState :=
  tokenizeLoop (json.length + 1) json.toList initTokState

/-- Assembler state: the explicit frame stack (head is the top), the
caller root, and the pending `name` register. The C++ bottom frame holds
a pointer to the caller root, so the model writes the popped bottom node
back into `root`; while frames remain on the stack the live value of the
root is the bottom frame, which `rootAfter` reads. -/
structure AsmState where
  stack : List (String × Node)
  root : Node
  pendingName : String

/-- The node the caller root holds after `Parser::assemble` stops: the
bottom frame while one is on the stack (it aliases the caller root), the
recorded root otherwise. -/
def rootAfter (st : AsmState) : Node :=
  match st.stack.getLast? with
  | some f => f.2
  | none => st.root

/-- Loop of `Parser::assemble`, consuming the token queue with the
payload queue alongside: yields the first error raised, if any, and the
assembler state reached. The source returns true exactly when the token
queue empties with no error raised; the frame stack is not examined at
that point. -/
def assembleLoop : List Token → List (ValueType × String) → AsmState →
    Option String × AsmState
  | [], _, st => (none, st)
  | .T_UNKNOWN :: _, data, st =>
    (some ("Unknown token: " ++ (data.headD (.VT_STRING, "")).2), st)
  | .T_OBJ_BEGIN :: rest, data, st =>
    if st.stack.isEmpty then
      if st.root.IsObject then
        assembleLoop rest data ⟨[(st.pendingName, st.root)], st.root, ""⟩
      else (some "The given root node is not an object", st)
    else
      assembleLoop rest data ⟨(st.pendingName, Node.obj []) :: st.stack, st.root, ""⟩
  | .T_ARRAY_BEGIN :: rest, data, st =>
    if st.stack.isEmpty then
      if st.root.IsArray then
        assembleLoop rest data ⟨[(st.pendingName, st.root)], st.root, ""⟩
      else (some "The given root node is not an array", st)
    else
      assembleLoop rest data ⟨(st.pendingName, Node.arr []) :: st.stack, st.root, ""⟩
  | .T_OBJ_END :: rest, data, st =>
    match st.stack with
    | [] => (some "Found end of object or array without beginning", st)
    | (nm, nd) :: stackRest =>
      if !nd.IsObject then (some "Mismatched end and beginning of object", st)
      else
        match stackRest with
        | [] => assembleLoop rest data ⟨[], nd, st.pendingName⟩
        | (pnm, pnd) :: deeper =>
          match pnd with
          | .obj cs =>
            assembleLoop rest data
              ⟨(pnm, Node.obj (cs ++ [(nm, nd)])) :: deeper, st.root, st.pendingName⟩
          | .arr cs =>
            assembleLoop rest data
              ⟨(pnm, Node.arr (cs ++ [nd])) :: deeper, st.root, st.pendingName⟩
          | .val _ _ => (some "Can only add elements to objects and arrays", st)
  | .T_ARRAY_END :: rest, data, st =>
    match st.stack with
    | [] => (some "Found end of object or array without beginning", st)
    | (nm, nd) :: stackRest =>
      if !nd.IsArray then (some "Mismatched end and beginning of array", st)
      else
        match stackRest with
        | [] => assembleLoop rest data ⟨[], nd, st.pendingName⟩
        | (pnm, pnd) :: deeper =>
          match pnd with
          | .obj cs =>
            assembleLoop rest data
              ⟨(pnm, Node.obj (cs ++ [(nm, nd)])) :: deeper, st.root, st.pendingName⟩
          | .arr cs =>
            assembleLoop rest data
              ⟨(pnm, Node.arr (cs ++ [nd])) :: deeper, st.root, st.pendingName⟩
          | .val _ _ => (some "Can only add elements to objects and arrays", st)
  | .T_VALUE :: .T_SEPARATOR_NAME :: rest2, data, st =>
    let d := data.headD (.VT_STRING, "")
    if d.1 = .VT_STRING then
      assembleLoop rest2 data.tail ⟨st.stack, st.root, d.2⟩
    else (some "A name has to be a string", st)
  | .T_VALUE :: rest, data, st =>
    let d := data.headD (.VT_STRING, "")
    let node := if d.1 = .VT_STRING then Value.SetString d.2 else Value.SetTyped d.1 d.2
    match st.stack with
    | [] =>
      if st.root.IsValue then
        assembleLoop rest data.tail ⟨[(st.pendingName, node)], node, ""⟩
      else (some "The given root node is not a value", st)
    | (pnm, pnd) :: deeper =>
      match pnd with
      | .obj cs =>
        assembleLoop rest data.tail
          ⟨(pnm, Node.obj (cs ++ [(st.pendingName, node)])) :: deeper, st.root, ""⟩
      | .arr cs =>
        assembleLoop rest data.tail
          ⟨(pnm, Node.arr (cs ++ [node])) :: deeper, st.root, ""⟩
      | .val t s =>
        assembleLoop rest data.tail ⟨(pnm, Node.val t s) :: deeper, st.root, ""⟩
  | .T_SEPARATOR_NAME :: rest, data, st => assembleLoop rest data st
  | .T_SEPARATOR_NODE :: rest, data, st => assembleLoop rest data st

/-- Outcome of `Parser::Parse`: the returned success flag, the error
text set (empty when none was), and the node the caller root holds
afterwards. -/
structure ParseOutcome where
  success : Bool
  error : String
  root : Node

/-- `Parser::Parse`: tokenize, then assemble into the caller root. -/
def Parse (root : Node) (json : String) : ParseOutcome :=
  let ts := tokenize json
  let res := assembleLoop ts.tokens ts.data ⟨[], root, ""⟩
  ⟨res.1.isNone, res.1.getD "", rootAfter res.2⟩

/-- An object entry list in which no entry of the prefix carries the
looked-up name resolves `Object::Get` to the first entry that does. -/
theorem Object.Get_first_match (pre post : List (String × Node)) (name : String)
    (nd : Node) (h : ∀ p ∈ pre, p.1 ≠ name) :
    Object.Get (pre ++ (name, nd) :: post) name = .ok nd := by
  induction pre with
  | nil => simp [Object.Get]
  | cons p rest ih =>
    obtain ⟨n, c⟩ := p
    have hn : n ≠ name := by simpa using h (n, c) (by simp)
    have ih2 := ih (fun q hq => h q (by simp [hq]))
    simpa [Object.Get, hn] using ih2

/-- `Object::Get` throws `NotFoundException` when no entry matches. -/
theorem Object.Get_no_match (o : List (String × Node)) (name : String)
    (h : ∀ p ∈ o, p.1 ≠ name) :
    Object.Get o name = .error .notFoundError := by
  induction o with
  | nil => simp [Object.Get]
  | cons p rest ih =>
    obtain ⟨n, c⟩ := p
    have hn : n ≠ name := by simpa using h (n, c) (by simp)
    have ih2 := ih (fun q hq => h q (by simp [hq]))
    simpa [Object.Get, hn] using ih2

/-- `Object::Remove` deletes exactly the first matching entry: every
entry before it and every entry after it survives unchanged. -/
theorem Object.Remove_first_match (pre post : List (String × Node)) (name : String)
    (nd : Node) (h : ∀ p ∈ pre, p.1 ≠ name) :
    Object.Remove (pre ++ (name, nd) :: post) name = pre ++ post := by
  induction pre with
  | nil => simp [Object.Remove]
  | cons p rest ih =>
    obtain ⟨n, c⟩ := p
    have hn : n ≠ name := by simpa using h (n, c) (by simp)
    have ih2 := ih (fun q hq => h q (by simp [hq]))
    simp [Object.Remove, hn, ih2]

/-- C1: the round trip fails on the code as soon as a Bool (or Null)
leaf appears. The tree with the single entry a ↦ true, built through the
public Add API, serialises compactly to the expected text, but parsing
that text back fails — the unquoted literal true is flushed to
`interpretValue`, whose uppercase transform writes into a string of size
0, so the TRUE comparison fails and the buffer becomes an unknown token
— and the fresh root is left an empty object whose second serialisation
differs from the first. -/
theorem C1_roundtrip_breaks_on_bool_leaf :
    Writer.Write (Node.obj (Object.Add [] "a" (Value.ofBool true))) NoFormat
      = "\x7b\"a\":true\x7d" ∧
    (Parse (Node.obj []) "\x7b\"a\":true\x7d").success = false ∧
    (Parse (Node.obj []) "\x7b\"a\":true\x7d").error = "Unknown token: true" ∧
    Writer.Write (Parse (Node.obj []) "\x7b\"a\":true\x7d").root NoFormat = "\x7b\x7d" ∧
    ("\x7b\x7d" : String) ≠ "\x7b\"a\":true\x7d" :=
  ⟨rfl, rfl, rfl, rfl, by decide⟩

/-- C2: evaluation at the failing input s = "/". Escaping "/" yields the
two characters backslash slash, but `getUnescaped` — whose loop
condition ignores the loop variable and only ever tests for that exact
pair — maps the pair back to a lone backslash, not to "/"; and the
escaped newline pair is not recognised at all, so it survives as two
characters instead of collapsing back to the newline. -/
theorem C2_unescape_escape_not_inverse :
    Value.EscapeString "/" = "\\/" ∧
    Value.UnescapeString "\\/" = "\\" ∧
    Value.UnescapeString (Value.EscapeString "/") ≠ "/" ∧
    Value.EscapeString "\n" = "\\n" ∧
    Value.UnescapeString (Value.EscapeString "\n") ≠ "\n" :=
  ⟨rfl, rfl, by decide, rfl, by decide⟩

/-- C3: evaluation at the failing inputs. The uppercase transform in
`interpretValue` writes through the iterator of a string whose size is
still 0, so the NULL/TRUE/FALSE comparisons never hold: parsing "true",
"false" or "null" into a Value root fails with an unknown-token error
instead of producing Bool or Null payloads. The numeric path does not
depend on the broken comparison, so "123" still parses to a Number with
ToInt giving 123, and "abc" still fails with an unknown-token error as
the claim states. -/
theorem C3_literal_classification_at_code :
    (Parse (Node.val .VT_NULL "") "true").success = false ∧
    (Parse (Node.val .VT_NULL "") "true").error = "Unknown token: true" ∧
    (Parse (Node.val .VT_NULL "") "false").error = "Unknown token: false" ∧
    (Parse (Node.val .VT_NULL "") "null").error = "Unknown token: null" ∧
    interpretValue "true" = none ∧
    interpretValue "NULL" = none ∧
    (Parse (Node.val .VT_NULL "") "123").success = true ∧
    Node.IsNumber (Parse (Node.val .VT_NULL "") "123").root = true ∧
    Node.ToInt (Parse (Node.val .VT_NULL "") "123").root = .ok 123 ∧
    (Parse (Node.val .VT_NULL "") "abc").success = false ∧
    (Parse (Node.val .VT_NULL "") "abc").error = "Unknown token: abc" :=
  ⟨rfl, rfl, rfl, rfl, rfl, rfl, rfl, rfl, rfl, rfl, rfl⟩

/-- C4: comments are not transparent on this code. In the slash case of
the tokenizer switch `saveBuffer` keeps the value true and the `token`
variable keeps its previous value, so reaching the comment right after
the value 1 first flushes the buffered 1 and then pushes a stale
name-separator token again; assembly then treats the number 1 as an
object name and fails, while the comment-free text parses fine. The
token queue below shows the extra name separator right after the second
VALUE token. -/
theorem C4_comment_input_fails_to_parse :
    (Parse (Node.obj []) "\x7b\"a\": 1 /* note */, \"b\": 2\x7d").success = false ∧
    (Parse (Node.obj []) "\x7b\"a\": 1 /* note */, \"b\": 2\x7d").error
      = "A name has to be a string" ∧
    (tokenize "\x7b\"a\": 1 /* note */, \"b\": 2\x7d").tokens
      = [.T_OBJ_BEGIN, .T_VALUE, .T_SEPARATOR_NAME, .T_VALUE, .T_SEPARATOR_NAME,
         .T_SEPARATOR_NODE, .T_VALUE, .T_SEPARATOR_NAME, .T_VALUE, .T_OBJ_END] ∧
    (Parse (Node.obj []) "\x7b\"a\": 1, \"b\": 2\x7d").success = true ∧
    (Parse (Node.obj []) "\x7b\"a\": 1, \"b\": 2\x7d").root
      = Node.obj [("a", Node.val .VT_NUMBER "1"), ("b", Node.val .VT_NUMBER "2")] :=
  ⟨rfl, rfl, rfl, rfl, rfl⟩

/-- C5 counterexample: the claim says ToInt on a String-kind Value and
ToBool on a Number-kind Value raise a type error; on the code both calls
return defaults without throwing. -/
theorem C5_value_accessors_throw_refuted :
    Node.ToInt (Node.val .VT_STRING "hi") = .ok 0 ∧
    Node.ToInt (Node.val .VT_STRING "hi") ≠ .error .typeError ∧
    Node.ToBool (Node.val .VT_NUMBER "1") = .ok false ∧
    Node.ToBool (Node.val .VT_NUMBER "1") ≠ .error .typeError :=
  ⟨rfl, fun h => Except.noConfusion h, rfl, fun h => Except.noConfusion h⟩

/-- C5 amended: on a Value node the value accessors never throw — on a
kind mismatch ToInt and kindred numeric accessors return 0, ToBool
returns false, and ToString returns the stored text (or the literal
"null" for the Null kind); the type error is thrown only when a value
accessor runs on an Object or Array node, where the virtual base method
is reached. -/
theorem C5_value_accessor_defaults (t : ValueType) (s : String)
    (cs : List (String × Node)) (ns : List Node) :
    (t ≠ .VT_NUMBER → Node.ToInt (Node.val t s) = .ok 0) ∧
    (t ≠ .VT_BOOL → Node.ToBool (Node.val t s) = .ok false) ∧
    Node.ToString (Node.val t s) = .ok (valueText t s) ∧
    Node.ToInt (Node.obj cs) = .error .typeError ∧
    Node.ToInt (Node.arr ns) = .error .typeError ∧
    Node.ToBool (Node.obj cs) = .error .typeError ∧
    Node.ToString (Node.arr ns) = .error .typeError := by
  refine ⟨?_, ?_, rfl, rfl, rfl, rfl, rfl⟩ <;> intro h <;> simp [Node.ToInt, Node.ToBool, h]

/-- C5 witness: the amended statement applied at a String-kind and a
Number-kind Value. -/
theorem C5_value_accessor_defaults_witness :
    Node.ToInt (Node.val .VT_STRING "hi") = .ok 0 ∧
    Node.ToBool (Node.val .VT_NUMBER "1") = .ok false :=
  ⟨(C5_value_accessor_defaults .VT_STRING "hi" [] []).1 (by decide),
   (C5_value_accessor_defaults .VT_NUMBER "1" [] []).2.1 (by decide)⟩

/-- C6: parsing succeeds exactly when the token queue empties without a
prior failure, and the frame stack is not required to be empty then: on
the truncated input missing two closing brackets the assembler consumes
every token without error, reports success, and leaves two frames on the
stack — the caller root is an empty array and the inner array holding 1
and 2 sits unattached in the abandoned upper frame. -/
theorem C6_success_on_truncated_input :
    (Parse (Node.arr []) "[[1,2").success = true ∧
    (Parse (Node.arr []) "[[1,2").root = Node.arr [] ∧
    (assembleLoop (tokenize "[[1,2").tokens (tokenize "[[1,2").data
        ⟨[], Node.arr [], ""⟩).1 = none ∧
    (assembleLoop (tokenize "[[1,2").tokens (tokenize "[[1,2").data
        ⟨[], Node.arr [], ""⟩).2.stack
      = [("", Node.arr [Node.val .VT_NUMBER "1", Node.val .VT_NUMBER "2"]),
         ("", Node.arr [])] :=
  ⟨rfl, rfl, rfl, rfl⟩

/-- C7: root-kind enforcement. Parsing an array text into an Object root
fails with the array root-kind error, parsing an object text into an
Array root fails with the object root-kind error; and in general, with
an empty frame stack, an OBJ_BEGIN token demands an Object root and an
ARRAY_BEGIN token demands an Array root, else assembly stops with the
corresponding error and an unchanged state. -/
theorem C7_root_kind_enforcement (st : AsmState) (ts : List Token)
    (ds : List (ValueType × String)) :
    ((Parse (Node.obj []) "[1,2]").success = false ∧
     (Parse (Node.obj []) "[1,2]").error = "The given root node is not an array") ∧
    ((Parse (Node.arr []) "\x7b\"a\":1\x7d").success = false ∧
     (Parse (Node.arr []) "\x7b\"a\":1\x7d").error = "The given root node is not an object") ∧
    (st.stack = [] → st.root.IsObject = false →
      assembleLoop (.T_OBJ_BEGIN :: ts) ds st
        = (some "The given root node is not an object", st)) ∧
    (st.stack = [] → st.root.IsArray = false →
      assembleLoop (.T_ARRAY_BEGIN :: ts) ds st
        = (some "The given root node is not an array", st)) := by
  refine ⟨⟨rfl, rfl⟩, ⟨rfl, rfl⟩, ?_, ?_⟩ <;> intro h1 h2 <;>
    simp [assembleLoop, h1, h2]

/-- C7 witness: the general root-kind rules applied to an Array root
meeting OBJ_BEGIN and an Object root meeting ARRAY_BEGIN. -/
theorem C7_root_kind_enforcement_witness :
    assembleLoop [.T_OBJ_BEGIN] [] ⟨[], Node.arr [], ""⟩
      = (some "The given root node is not an object", ⟨[], Node.arr [], ""⟩) ∧
    assembleLoop [.T_ARRAY_BEGIN] [] ⟨[], Node.obj [], ""⟩
      = (some "The given root node is not an array", ⟨[], Node.obj [], ""⟩) :=
  ⟨(C7_root_kind_enforcement ⟨[], Node.arr [], ""⟩ [] []).2.2.1 rfl rfl,
   (C7_root_kind_enforcement ⟨[], Node.obj [], ""⟩ [] []).2.2.2 rfl rfl⟩

/-- C8: object entries keep insertion order — Add appends at the back
and never merges, so duplicate names coexist and the count always grows
by one — Get resolves a name to the first matching entry and throws the
not-found error when no entry matches, and Remove deletes exactly the
first matching entry, leaving every other entry unchanged. -/
theorem C8_object_order_and_first_match (pre post o : List (String × Node))
    (name : String) (nd na nb : Node) :
    Object.Add o name nd = o ++ [(name, nd)] ∧
    Object.GetCount (Object.Add o name nd) = Object.GetCount o + 1 ∧
    Object.Has (Object.Add o name nd) name = true ∧
    Object.Get (Object.Add (Object.Add [] name na) name nb) name = .ok na ∧
    ((∀ p ∈ pre, p.1 ≠ name) →
      Object.Get (pre ++ (name, nd) :: post) name = .ok nd ∧
      Object.Remove (pre ++ (name, nd) :: post) name = pre ++ post) ∧
    ((∀ p ∈ o, p.1 ≠ name) → Object.Get o name = .error .notFoundError) := by
  refine ⟨rfl, by simp [Object.GetCount, Object.Add], by simp [Object.Has, Object.Add],
    by simp [Object.Add, Object.Get], fun h => ⟨Object.Get_first_match pre post name nd h,
    Object.Remove_first_match pre post name nd h⟩, fun h => Object.Get_no_match o name h⟩

/-- C8 witness: the first-match rules applied to a concrete object whose
prefix entry carries a different name and which holds a duplicate of the
looked-up name further right. -/
theorem C8_object_order_and_first_match_witness :
    Object.Get [("x", Node.val .VT_NULL ""), ("a", Node.val .VT_NUMBER "1"),
        ("a", Node.val .VT_NUMBER "2")] "a" = .ok (Node.val .VT_NUMBER "1") ∧
    Object.Remove [("x", Node.val .VT_NULL ""), ("a", Node.val .VT_NUMBER "1"),
        ("a", Node.val .VT_NUMBER "2")] "a"
      = [("x", Node.val .VT_NULL ""), ("a", Node.val .VT_NUMBER "2")] ∧
    Object.Get [("x", Node.val .VT_NULL "")] "a" = .error .notFoundError := by
  have h1 := (C8_object_order_and_first_match [("x", Node.val .VT_NULL "")]
    [("a", Node.val .VT_NUMBER "2")] [("x", Node.val .VT_NULL "")] "a"
    (Node.val .VT_NUMBER "1") (Node.val .VT_NULL "") (Node.val .VT_NULL "")).2.2.2.2
  exact ⟨(h1.1 (by decide)).1, (h1.1 (by decide)).2, h1.2 (by decide)⟩

/-- C9: serialising the object with the single entry a ↦ 1 under the
compact parameters yields exactly the compact text, and under newline,
spacing, space indentation and indent size one yields exactly the pretty
text with one space of indent. -/
theorem C9_formatting_exact :
    Writer.Write (Node.obj [("a", Node.val .VT_NUMBER "1")]) NoFormat
      = "\x7b\"a\":1\x7d" ∧
    Writer.Write (Node.obj [("a", Node.val .VT_NUMBER "1")]) ⟨true, true, false, 1⟩
      = "\x7b\n \"a\": 1\n\x7d" :=
  ⟨rfl, rfl⟩

/-- C10: `Array::Remove` with an index at or past the count is a silent
no-op — the guard simply skips the erase, no exception path exists, and
the children are returned unchanged. -/
theorem C10_array_remove_past_end (a : List Node) (i : Nat)
    (h : Array.GetCount a ≤ i) : Array.Remove a i = a := by
  have h2 : ¬ i < a.length := by
    simp only [Array.GetCount] at h
    omega
  simp [Array.Remove, h2]

/-- C10 witness: removal at index 5 of a one-element array returns the
array unchanged. -/
theorem C10_array_remove_past_end_witness :
    Array.Remove [Node.val .VT_NULL ""] 5 = [Node.val .VT_NULL ""] :=
  C10_array_remove_past_end [Node.val .VT_NULL ""] 5 (by decide)

end Jzon
